import Mathlib

/-!
Shallow embedding of the LCD_SIM_MAIN expression-playback core.

The embedded code comes from two source files:
  * `src/lcd_simulator.py` — the Tk simulator (`MiniLCDSimulator`): the
    keyword mapper `llm_stub`, emoji extraction, the playback state machine
    (`play_animation` / `_animate_step` / `play_idle`), the idle-drift check
    `_idle_tick`, the boot marquee, the glow refresh, the prompt handler
    `on_user_prompt` and the touch handler `apply_touch`.
  * `src/run_pi.py` — the Pi app (`PiLCDApp.play_animation`).

Tk's `root.after(ms, cb)` callback scheduling is modelled explicitly: every
operation returns, besides the new core state, the list of `(delayMs, callback)`
pairs it registered, the frames it presented, and the idle-drift transitions it
performed.  Wall-clock times are natural numbers of milliseconds (the Python
code mixes `time.time()` seconds with millisecond delays; the 60-second idle
dwell is therefore 60000 here).  Frames are opaque (`Nat`), matching the spec's
"opaque fixed-size pixel buffer".  The mutually recursive trio
`play_animation` / `_animate_step` / `play_idle` is written as one
fuel-indexed function; `none` models a Python call that does not return
normally (unbounded recursion / out-of-range frame access).
-/

namespace LcdSim

/-- A frame is opaque to the core: a buffer reference. -/
abbrev Frame := Nat

/-- The frame store: `self.anim.get(name, [])` — any name maps to its loaded
frame list, absent names to `[]`. -/
abbrev FrameStore := String → List Frame

/-- `DisplayState.mode`: `"BOOT" | "IDLE" | "EVENT"`. -/
inductive Mode
  | BOOT
  | IDLE
  | EVENT
deriving DecidableEq

/-- `DisplayState.idle_variant`: `"center" | "left" | "right"`. -/
inductive Variant
  | center
  | left
  | right
deriving DecidableEq

/-! ## String helpers (Python `str.lower`, `str.strip`, `in`) -/

/-- Python `k == p[:len(k)]` check used to realise substring containment. -/
def isPrefixChars : List Char → List Char → Bool
  | [], _ => true
  | _ :: _, [] => false
  | a :: as, b :: bs => a == b && isPrefixChars as bs

/-- Python's substring test `k in p`, on explicit character lists. -/
def containsSub : List Char → List Char → Bool
  | needle, [] => isPrefixChars needle []
  | needle, b :: bs => isPrefixChars needle (b :: bs) || containsSub needle bs

/-- Python `s.lower()` (ASCII case folding, which covers every keyword). -/
def lowerStr (s : String) : String :=
  String.mk (s.toList.map Char.toLower)

/-- Python `s.strip()`: drop leading and trailing whitespace. -/
def stripChars (cs : List Char) : List Char :=
  ((cs.dropWhile Char.isWhitespace).reverse.dropWhile Char.isWhitespace).reverse

/-- Python `s.strip()` on strings. -/
def stripStr (s : String) : String :=
  String.mk (stripChars s.toList)

/-- Python `any(k in p for k in ks)`. -/
def anyKey (ks : List String) (p : String) : Bool :=
  ks.any fun k => containsSub k.toList p.toList

/-! ## The stimulus mapper `llm_stub` (src/lcd_simulator.py lines 77-125) -/

/-- `IDLE_FACE = "👁️-👁️"`. -/
def IDLE_FACE : String := "👁️-👁️"

def sleepKeys : List String :=
  ["sleep", "go to sleep", "sleep mode", "going to sleep"]

def proximityKeys : List String :=
  ["proximity", "too close", "close to the screen", "close to screen", "come closer",
   "you are close", "you\x27re close", "move back", "back up", "sit back", "distance"]

def phoneKeys : List String :=
  ["phone", "mobile", "cell", "cellphone", "smartphone",
   "scroll", "scrolling", "instagram", "reels", "tiktok", "youtube shorts",
   "using phone", "on my phone", "picked up my phone", "device"]

def loveKeys : List String :=
  ["love", "i love you", "i love u", "love you", "heart", "❤️", "❤", "♥"]

def hateKeys : List String :=
  ["hate", "i hate you", "dislike", "i dislike", "dont like", "don\x27t like",
   "i dont like", "i don\x27t like", "i dont love", "i don\x27t love"]

def silenceKeys : List String :=
  ["silence", "mute", "be quiet", "quiet", "stop talking", "shut up"]

def jokeKeys : List String :=
  ["joke", "funny", "make me laugh"]

def focusOnKeys : List String :=
  ["focus mode on", "focus on", "turn on focus", "enable focus", "start focus"]

def focusOffKeys : List String :=
  ["focus mode off", "focus off", "turn off focus", "disable focus", "stop focus"]

/-- `llm_stub(user_prompt)`: lowercase, strip, then check the keyword groups
in source order; the first group containing a matching keyword wins. -/
def llm_stub (userPrompt : String) : String :=
  let p := stripStr (lowerStr userPrompt)
  if anyKey sleepKeys p then "💤"
  else if anyKey proximityKeys p then "🫸"
  else if anyKey phoneKeys p then "📵"
  else if anyKey loveKeys p then "❤️"
  else if anyKey hateKeys p then "😔"
  else if anyKey silenceKeys p then "🤐"
  else if anyKey jokeKeys p then "😂"
  else if anyKey focusOnKeys p then "🎯"
  else if anyKey focusOffKeys p then "🧘"
  else IDLE_FACE

/-- Spec-side mapper (refinement reference for C2), following the spec's words:
"ordered keyword groups; the first matching group in priority order wins
(source order: sleep, proximity, phone, love, hate, silence, joke, focus-on,
focus-off, else idle)". -/
def mapperGroups : List (List String × String) :=
  [(sleepKeys, "💤"), (proximityKeys, "🫸"), (phoneKeys, "📵"), (loveKeys, "❤️"),
   (hateKeys, "😔"), (silenceKeys, "🤐"), (jokeKeys, "😂"), (focusOnKeys, "🎯"),
   (focusOffKeys, "🧘")]

/-- First matching group of an ordered group list, else the idle face. -/
def firstMatch : List (List String × String) → String → String
  | [], _ => IDLE_FACE
  | (ks, e) :: rest, p => if anyKey ks p then e else firstMatch rest p

/-- The spec's mapper: case-insensitive, ordered-group, first-match. -/
def mapperSpec (userPrompt : String) : String :=
  firstMatch mapperGroups (stripStr (lowerStr userPrompt))

/-! ## Emoji extraction (src/lcd_simulator.py lines 51-70) -/

/-- One character of `EMOJI_PATTERN`'s character class. -/
def isEmojiChar (c : Char) : Bool :=
  let n := c.toNat
  (0x1F300 ≤ n && n ≤ 0x1F5FF) || (0x1F600 ≤ n && n ≤ 0x1F64F) ||
  (0x1F680 ≤ n && n ≤ 0x1F6FF) || (0x1F700 ≤ n && n ≤ 0x1F77F) ||
  (0x1F780 ≤ n && n ≤ 0x1F7FF) || (0x1F800 ≤ n && n ≤ 0x1F8FF) ||
  (0x1F900 ≤ n && n ≤ 0x1F9FF) || (0x1FA00 ≤ n && n ≤ 0x1FA6F) ||
  (0x1FA70 ≤ n && n ≤ 0x1FAFF) || (0x2600 ≤ n && n ≤ 0x26FF) ||
  (0x2700 ≤ n && n ≤ 0x27BF)

/-- `extract_first_emoji`: the first (greedy) run of emoji-class characters,
`None` when the pattern does not occur. -/
def extract_first_emoji (t : String) : Option String :=
  match t.toList.dropWhile (fun c => !(isEmojiChar c)) with
  | [] => none
  | c :: cs => some (String.mk ((c :: cs).takeWhile isEmojiChar))

/-- `emoji_to_animation` (src/lcd_simulator.py lines 392-408). -/
def emoji_to_animation (e : String) : Option String :=
  if e = "❤️" ∨ e = "❤" ∨ e = "♥" ∨ e = "♥️" then some "love"
  else if e = "😂" then some "laugh"
  else if e = "🎯" then some "focus_on"
  else if e = "🧘" then some "focus_off"
  else if e = "📵" then some "phone"
  else if e = "🫸" then some "proximity"
  else if e = "💤" then some "sleep"
  else if e = "😔" then some "hate"
  else if e = "🤐" then some "silence"
  else if e = "🥰" then some "blush"
  else if e = "🙄" then some "angry"
  else if e = "👀" then some "idle_center"
  else none

/-! ## The simulator state (`MiniLCDSimulator` fields + `DisplayState`)

The `session` field is ghost instrumentation used only by the correctness
statements: it numbers the playback sessions, increasing by one each time
`play_animation` installs a new frame list (the point where the previous
session is retired).  It does not influence any transition. -/

structure Sim where
  mode : Mode
  idleVariant : Variant
  lastIdleMove : Nat
  currentEmoji : String
  volume : Nat
  currentFrames : List Frame
  frameIndex : Nat
  playing : Bool
  loopFlag : Bool
  fpsMs : Nat
  fallbackToIdle : Bool
  holdLastMs : Nat
  marqueeRight : Int
  marqueeStart : Int
  marqueeLoops : Nat
  session : Nat
deriving DecidableEq

/-- Where a presented frame came from: `_animate_step` (the player) or the
33 ms `_glow_refresh` re-render. -/
inductive PresSrc
  | anim
  | glow
deriving DecidableEq

/-- One presented frame: owning session (ghost), frame index, frame, source. -/
structure Pres where
  sid : Nat
  idx : Nat
  frame : Frame
  src : PresSrc
deriving DecidableEq

/-- The callbacks that `root.after` can schedule. `delayedIdle` is the lambda
`lambda: self.play_idle(self.state.idle_variant)` of `_animate_step`. -/
inductive Cb
  | animStep
  | idleTick
  | glowTick
  | marqueeStep
  | delayedIdle
deriving DecidableEq

/-- Result of running one operation: the new state, the `(delayMs, callback)`
pairs passed to `root.after`, the frames drawn, and the ghost log of
idle-drift firing times. -/
structure Out where
  sim : Sim
  scheds : List (Nat × Cb)
  pres : List Pres
  drifts : List Nat
deriving DecidableEq

/-- The three mutually recursive player operations. -/
inductive Call
  | pa (name : String) (lp : Bool) (fps : Nat) (fb : Bool) (hold : Nat)
  | astep
  | pi (v : Variant)

/-- `play_animation` (lines 298-312) / `_animate_step` (lines 314-333) /
`play_idle` (lines 335-345), as one fuel-indexed function.  `none` models a
call that does not return normally: the unbounded
`play_animation ↔ play_idle` recursion when `idle_center` is itself empty,
or an out-of-range frame access in `draw_frame`. -/
def runCall (store : FrameStore) : Nat → Call → Sim → Option Out
  | 0, _, _ => none
  | fuel + 1, c, s =>
    match c with
    | Call.pa name lp fps fb hold =>
      -- frames = self.anim.get(name, []); if not frames: self.play_idle("center")
      let frames := store name
      if frames = [] then runCall store fuel (Call.pi Variant.center) s
      else
        runCall store fuel Call.astep
          { s with currentFrames := frames, frameIndex := 0, playing := true,
                   loopFlag := lp, fpsMs := fps, fallbackToIdle := fb,
                   holdLastMs := hold, session := s.session + 1 }
    | Call.astep =>
      if s.playing = false ∨ s.currentFrames = [] then some ⟨s, [], [], []⟩
      else
        match s.currentFrames[s.frameIndex]? with
        | none => none
        | some fr =>
          let p : Pres := ⟨s.session, s.frameIndex, fr, PresSrc.anim⟩
          let s1 := { s with frameIndex := s.frameIndex + 1 }
          if s1.currentFrames.length ≤ s1.frameIndex then
            if s1.loopFlag then
              some ⟨{ s1 with frameIndex := 0 }, [(s1.fpsMs, Cb.animStep)], [p], []⟩
            else
              let s2 := { s1 with playing := false }
              if s2.fallbackToIdle then
                if 0 < s2.holdLastMs then
                  some ⟨s2, [(s2.holdLastMs, Cb.delayedIdle)], [p], []⟩
                else
                  (runCall store fuel (Call.pi s2.idleVariant) s2).map
                    fun o => ⟨o.sim, o.scheds, p :: o.pres, o.drifts⟩
              else some ⟨s2, [], [p], []⟩
          else
            some ⟨s1, [(s1.fpsMs, Cb.animStep)], [p], []⟩
    | Call.pi v =>
      let s1 := { s with mode := Mode.IDLE, idleVariant := v, currentEmoji := IDLE_FACE }
      match v with
      | Variant.left => runCall store fuel (Call.pa "idle_left" false 120 true 700) s1
      | Variant.right => runCall store fuel (Call.pa "idle_right" false 120 true 700) s1
      | Variant.center => runCall store fuel (Call.pa "idle_center" true 170 false 0) s1

/-- `play_animation(name, loop, fps_ms, fallback_to_idle, hold_last_ms)`. -/
def play_animation (store : FrameStore) (fuel : Nat) (name : String) (lp : Bool)
    (fps : Nat) (fb : Bool) (hold : Nat) (s : Sim) : Option Out :=
  runCall store fuel (Call.pa name lp fps fb hold) s

/-- `play_idle(variant)`. -/
def play_idle (store : FrameStore) (fuel : Nat) (v : Variant) (s : Sim) : Option Out :=
  runCall store fuel (Call.pi v) s

/-- `_idle_tick` (lines 347-355): fires every 500 ms; when idle for the 60 s
dwell (60000 ms here) it restamps `last_idle_move` and fires a one-shot look
to the side, then in every case re-registers itself after 500 ms. -/
def idle_tick (store : FrameStore) (fuel now : Nat) (s : Sim) : Option Out :=
  if s.mode = Mode.IDLE ∧ 60000 ≤ now - s.lastIdleMove then
    let s1 := { s with lastIdleMove := now }
    let nv := if s1.idleVariant ≠ Variant.left then Variant.left else Variant.right
    (runCall store fuel (Call.pi nv) s1).map
      fun o => ⟨o.sim, o.scheds ++ [(500, Cb.idleTick)], o.pres, now :: o.drifts⟩
  else some ⟨s, [(500, Cb.idleTick)], [], []⟩

/-- `_glow_refresh` (lines 291-296): every 33 ms, when no animation step is
running and frames exist, re-draw the frame at `max(0, min(len-1, idx-1))`
(the saturating `Nat` subtraction realises the `max(0, ·)`). -/
def glow_refresh (s : Sim) : Out :=
  if s.playing = false ∧ s.currentFrames ≠ [] then
    let idx := min (s.currentFrames.length - 1) (s.frameIndex - 1)
    ⟨s, [(33, Cb.glowTick)], [⟨s.session, idx, s.currentFrames.getD idx 0, PresSrc.glow⟩], []⟩
  else ⟨s, [(33, Cb.glowTick)], [], []⟩

/-- `_animate_marquee` (lines 375-390): move the boot text left by 3 px per
16 ms; when it leaves the screen, either restart it or, after the last loop,
stamp `last_idle_move` and enter `Idle(Center)`. -/
def animate_marquee (store : FrameStore) (fuel now : Nat) (s : Sim) : Option Out :=
  if s.mode ≠ Mode.BOOT then some ⟨s, [], [], []⟩
  else
    let s1 := { s with marqueeRight := s.marqueeRight - 3 }
    if s1.marqueeRight < 0 then
      let s2 := { s1 with marqueeLoops := s1.marqueeLoops - 1 }
      if s2.marqueeLoops = 0 then
        runCall store fuel (Call.pi Variant.center) { s2 with lastIdleMove := now }
      else some ⟨{ s2 with marqueeRight := s2.marqueeStart }, [(16, Cb.marqueeStep)], [], []⟩
    else some ⟨s1, [(16, Cb.marqueeStep)], [], []⟩

/-- The emoji `on_user_prompt` (lines 416-422) settles on: the mapper output,
its first emoji (or the idle face), bare hearts normalised to `"❤️"`. -/
def resolveEmoji (txt : String) : String :=
  let e0 := (extract_first_emoji (llm_stub (stripStr txt))).getD IDLE_FACE
  if e0 = "❤" ∨ e0 = "♥" ∨ e0 = "♥️" then "❤️" else e0

/-- `on_user_prompt` (lines 410-430). -/
def on_user_prompt (store : FrameStore) (fuel : Nat) (txt : String) (s : Sim) : Option Out :=
  if stripStr txt = "" then some ⟨s, [], [], []⟩
  else
    let s1 := { s with currentEmoji := resolveEmoji txt }
    match emoji_to_animation (resolveEmoji txt) with
    | none => runCall store fuel (Call.pi Variant.center) s1
    | some a =>
      if a = "idle_center" then runCall store fuel (Call.pi Variant.center) s1
      else
        runCall store fuel (Call.pa a false 90 true 5000) { s1 with mode := Mode.EVENT }

/-- The touch locations of `apply_touch`. -/
inductive TouchLoc
  | head
  | cheekLeft
  | cheekRight
  | both
deriving DecidableEq

/-- `apply_touch` (lines 435-459).  `max(0, v - 10)` is the saturating `Nat`
subtraction; head taps other than 1, 2, 3 fall through with no effect. -/
def apply_touch (store : FrameStore) (fuel : Nat) (loc : TouchLoc) (taps : Nat)
    (s : Sim) : Option Out :=
  match loc with
  | TouchLoc.both =>
    runCall store fuel (Call.pa "love" false 90 true 5000) { s with currentEmoji := "❤️" }
  | TouchLoc.cheekLeft => some ⟨{ s with volume := s.volume - 10 }, [], [], []⟩
  | TouchLoc.cheekRight => some ⟨{ s with volume := min 100 (s.volume + 10) }, [], [], []⟩
  | TouchLoc.head =>
    if taps = 1 then
      runCall store fuel (Call.pa "angry" false 90 true 5000) { s with currentEmoji := "�" }
    else if taps = 2 then
      runCall store fuel (Call.pa "blush" false 90 true 5000) { s with currentEmoji := "🥰" }
    else if taps = 3 then
      runCall store fuel (Call.pa "sleep" false 90 true 5000) { s with currentEmoji := "💤" }
    else some ⟨s, [], [], []⟩

/-- Everything that can act on the shared state: a fired timer callback, a
submitted text prompt, or a touch. -/
inductive Act
  | timer (c : Cb)
  | prompt (txt : String)
  | touch (loc : TouchLoc) (taps : Nat)

/-- Dispatch one action. -/
def execAct (store : FrameStore) (fuel now : Nat) (a : Act) (s : Sim) : Option Out :=
  match a with
  | Act.timer Cb.animStep => runCall store fuel Call.astep s
  | Act.timer Cb.idleTick => idle_tick store fuel now s
  | Act.timer Cb.glowTick => some (glow_refresh s)
  | Act.timer Cb.marqueeStep => animate_marquee store fuel now s
  | Act.timer Cb.delayedIdle => runCall store fuel (Call.pi s.idleVariant) s
  | Act.prompt txt => on_user_prompt store fuel txt s
  | Act.touch loc taps => apply_touch store fuel loc taps s

/-- Run a list of timestamped actions in order, collecting the presentations. -/
def runActs (store : FrameStore) (fuel : Nat) : List (Nat × Act) → Sim → Option (Sim × List Pres)
  | [], s => some (s, [])
  | (t, a) :: rest, s =>
    (execAct store fuel t a s).bind fun o =>
      (runActs store fuel rest o.sim).map fun r => (r.1, o.pres ++ r.2)

/-! ## The Tk event loop: timers fired in time order (FIFO among ties) -/

/-- A whole configuration: clock, state, pending timers (absolute fire times),
trace of drawn frames, log of drift times. -/
structure Config where
  now : Nat
  sim : Sim
  timers : List (Nat × Cb)
  trace : List Pres
  drifts : List Nat
deriving DecidableEq

/-- Least pending fire time. -/
def minTime : List (Nat × Cb) → Nat → Nat
  | [], acc => acc
  | (t, _) :: r, acc => minTime r (min acc t)

/-- First callback registered for fire time `t`. -/
def findFirstAt : Nat → List (Nat × Cb) → Option Cb
  | _, [] => none
  | t, (t', c) :: r => if t' = t then some c else findFirstAt t r

/-- Remove that callback. -/
def removeFirstAt : Nat → List (Nat × Cb) → List (Nat × Cb)
  | _, [] => []
  | t, (t', c) :: r => if t' = t then r else (t', c) :: removeFirstAt t r

/-- Fire the earliest pending timer: advance the clock to its fire time, run
it, keep the other timers and register the newly scheduled ones after it. -/
def timerStep (store : FrameStore) (fuel : Nat) (cfg : Config) : Option Config :=
  match cfg.timers with
  | [] => some cfg
  | (t0, _) :: _ =>
    let m := minTime cfg.timers t0
    match findFirstAt m cfg.timers with
    | none => some cfg
    | some cb =>
      (execAct store fuel m (Act.timer cb) cfg.sim).map fun o =>
        ⟨m, o.sim,
         removeFirstAt m cfg.timers ++ o.scheds.map (fun dc => (m + dc.1, dc.2)),
         cfg.trace ++ o.pres, cfg.drifts ++ o.drifts⟩

/-- Fire `n` timers in order. -/
def runTimers (store : FrameStore) (fuel : Nat) : Nat → Config → Option Config
  | 0, cfg => some cfg
  | n + 1, cfg => (timerStep store fuel cfg).bind (runTimers store fuel n)

/-- `__init__` (lines 208-240): `DisplayState` starts in `BOOT`, volume 50,
player empty, then `start_boot_marquee` (lines 357-373) which keeps `BOOT`,
shows the idle face and arms two marquee repetitions.  `textW` is the pixel
width of the marquee text, `t0` the construction time. -/
def initState (t0 : Nat) (textW : Int) : Sim :=
  { mode := Mode.BOOT, idleVariant := Variant.center, lastIdleMove := t0,
    currentEmoji := IDLE_FACE, volume := 50, currentFrames := [], frameIndex := 0,
    playing := false, loopFlag := true, fpsMs := 170, fallbackToIdle := false,
    holdLastMs := 0, marqueeRight := 270 + textW, marqueeStart := 270 + textW,
    marqueeLoops := 2, session := 0 }

/-! ## The Pi app's player (`PiLCDApp.play_animation`, src/run_pi.py 213-228) -/

/-- The Pi app's state. Mode strings are `"IDLE" | "ANIMATING"`. -/
structure PiState where
  currentFrames : List Frame
  frameIdx : Nat
  fpsMs : Nat
  loopFlag : Bool
  fallbackToIdle : Bool
  mode : String
  idleVariant : String
  lastIdleMove : Nat
deriving DecidableEq

/-- `PiLCDApp.play_animation`: a name missing from `self.anims` only prints a
message and returns — the previous session keeps running, there is no idle
fallback.  The store is `Option`-valued because the dict membership test
distinguishes a missing key from a present key with an empty list. -/
def piPlayAnimation (anims : String → Option (List Frame)) (name : String)
    (lp : Bool) (fps : Nat) (fb : Bool) (now : Nat) (s : PiState) : PiState :=
  match anims name with
  | none => s
  | some fs =>
    let s1 := { s with currentFrames := fs, frameIdx := 0, fpsMs := fps,
                       loopFlag := lp, fallbackToIdle := fb,
                       mode := if lp then "IDLE" else "ANIMATING" }
    if containsSub "idle".toList name.toList then
      { s1 with idleVariant := name.replace "idle_" "", lastIdleMove := now }
    else s1

/-! ## Concrete test fixtures -/

/-- A concrete frame store: every catalog animation present with two frames
(frame numbers chosen distinct per animation), everything else absent. -/
def cStore : FrameStore := fun n =>
  if n = "idle_center" then [0, 1]
  else if n = "idle_left" then [2, 3]
  else if n = "idle_right" then [4, 5]
  else if n = "laugh" then [6, 7]
  else if n = "focus_on" then [8, 9]
  else if n = "focus_off" then [12, 13]
  else if n = "phone" then [14, 15]
  else if n = "proximity" then [16, 17]
  else if n = "sleep" then [20, 21]
  else if n = "love" then [10, 11]
  else if n = "hate" then [22, 23]
  else if n = "silence" then [24, 25]
  else if n = "blush" then [30, 31]
  else if n = "angry" then [40, 41]
  else []

/-- A state sitting in `Idle(Center)` with the idle loop loaded. -/
def sIdleCenter : Sim :=
  { mode := Mode.IDLE, idleVariant := Variant.center, lastIdleMove := 0,
    currentEmoji := IDLE_FACE, volume := 50, currentFrames := [0, 1],
    frameIndex := 1, playing := true, loopFlag := true, fpsMs := 170,
    fallbackToIdle := false, holdLastMs := 0, marqueeRight := 300,
    marqueeStart := 300, marqueeLoops := 0, session := 1 }

/-- A state in the middle of an idle look-shot to the left (reachable from
`sIdleCenter` by the idle-drift check). -/
def sLookLeft : Sim :=
  { mode := Mode.IDLE, idleVariant := Variant.left, lastIdleMove := 60000,
    currentEmoji := IDLE_FACE, volume := 50, currentFrames := [2, 3],
    frameIndex := 1, playing := true, loopFlag := false, fpsMs := 120,
    fallbackToIdle := true, holdLastMs := 700, marqueeRight := 300,
    marqueeStart := 300, marqueeLoops := 0, session := 2 }

/-- Iterate `_animate_step` (as fired by its own `after(fps_ms, ...)` chain)
`n` times, collecting presentations and registered callbacks. -/
def animN (store : FrameStore) (fuel : Nat) : Nat → Sim → Option (Sim × List Pres × List (Nat × Cb))
  | 0, s => some (s, [], [])
  | n + 1, s =>
    (runCall store fuel Call.astep s).bind fun o =>
      (animN store fuel n o.sim).map fun r => (r.1, o.pres ++ r.2.1, o.scheds ++ r.2.2)

/-- A state in `Event`, session 5, mid-way through a non-loop sleep playback. -/
def sEvent0 : Sim :=
  { mode := Mode.EVENT, idleVariant := Variant.center, lastIdleMove := 0,
    currentEmoji := "💤", volume := 50, currentFrames := [20, 21],
    frameIndex := 1, playing := true, loopFlag := false, fpsMs := 90,
    fallbackToIdle := true, holdLastMs := 5000, marqueeRight := 300,
    marqueeStart := 300, marqueeLoops := 0, session := 5 }

/-- `sEvent0` after its final frame: playing is off, the 5000 ms
`delayedIdle` hold is pending, and the idle-drift stamp is stale (0). -/
def sPostEvent : Sim :=
  { mode := Mode.EVENT, idleVariant := Variant.center, lastIdleMove := 0,
    currentEmoji := "💤", volume := 50, currentFrames := [20, 21],
    frameIndex := 2, playing := false, loopFlag := false, fpsMs := 90,
    fallbackToIdle := true, holdLastMs := 5000, marqueeRight := 300,
    marqueeStart := 300, marqueeLoops := 0, session := 5 }

/-- Config for the C6 dwell run: freshly stamped `Idle(Center)` at time 0
with the 500 ms `_idle_tick` chain armed. -/
def cfgDrift : Config :=
  ⟨0, { sIdleCenter with playing := false, currentFrames := [] },
   [(500, Cb.idleTick)], [], []⟩

/-- Config for the stale-stamp scenario: the event's hold expires at 70000,
re-entering `Idle(Center)` there, while `last_idle_move` is still 0. -/
def cfgStale : Config :=
  ⟨69990, sPostEvent, [(70000, Cb.delayedIdle), (70500, Cb.idleTick)], [], []⟩

/-- Pi-app fixture: the dict holds `idle_center` and `love` only. -/
def piAnims : String → Option (List Frame) := fun n =>
  if n = "idle_center" then some [0, 1]
  else if n = "love" then some [10, 11]
  else none

/-- Pi-app state mid-way through a non-loop `love` playback. -/
def piS0 : PiState :=
  ⟨[10, 11], 1, 100, false, true, "ANIMATING", "center", 0⟩

/-- `sEvent0` immediately after a new `love` session has been installed
(frame 0 already drawn by the synchronous first `_animate_step`). -/
def c5Out : Out :=
  ⟨{ sEvent0 with
      currentEmoji := "❤️", currentFrames := [10, 11], frameIndex := 1,
      playing := true, loopFlag := false, fpsMs := 90, fallbackToIdle := true,
      holdLastMs := 5000, session := 6 },
   [(90, Cb.animStep)], [⟨6, 0, 10, PresSrc.anim⟩], []⟩

/-- A freshly installed `love` event session, cursor still at frame 0. -/
def sC3 : Sim :=
  { sEvent0 with
    currentEmoji := "❤️", currentFrames := [10, 11], frameIndex := 0, session := 6 }

/-! ## General lemmas about the player -/

/-- The player trio only ever writes `IDLE` into `mode` (via `play_idle`);
otherwise it leaves the mode alone. -/
theorem runCall_mode (store : FrameStore) :
    ∀ fuel c s o, runCall store fuel c s = some o →
      o.sim.mode = s.mode ∨ o.sim.mode = Mode.IDLE := by
  intro fuel
  induction fuel with
  | zero => intro c s o h; simp [runCall] at h
  | succ f ih =>
    intro c s o h
    match c with
    | Call.pa name lp fps fb hold =>
      simp only [runCall] at h
      by_cases hf : store name = []
      · rw [if_pos hf] at h
        exact ih _ _ _ h
      · rw [if_neg hf] at h
        simpa using ih _ _ _ h
    | Call.astep =>
      simp only [runCall] at h
      split at h
      · cases h; exact Or.inl rfl
      · split at h
        · cases h
        · split at h
          · split at h
            · cases h; exact Or.inl rfl
            · split at h
              · split at h
                · cases h; exact Or.inl rfl
                · rw [Option.map_eq_some'] at h
                  obtain ⟨o', ho', rfl⟩ := h
                  simpa using ih _ _ _ ho'
              · cases h; exact Or.inl rfl
          · cases h; exact Or.inl rfl
    | Call.pi v =>
      simp only [runCall] at h
      match v with
      | Variant.left => rcases ih _ _ _ h with h' | h' <;> simp_all
      | Variant.right => rcases ih _ _ _ h with h' | h' <;> simp_all
      | Variant.center => rcases ih _ _ _ h with h' | h' <;> simp_all

/-- `_glow_refresh` never mutates the core state. -/
theorem glow_sim (s : Sim) : (glow_refresh s).sim = s := by
  by_cases h : s.playing = false ∧ s.currentFrames ≠ [] <;> simp [glow_refresh, h]

/-- The ghost session number never decreases, and every frame presented by the
player trio carries the session that was current when it was drawn, hence at
least the entry session. -/
theorem runCall_session (store : FrameStore) :
    ∀ fuel c s o, runCall store fuel c s = some o →
      s.session ≤ o.sim.session ∧ ∀ p ∈ o.pres, s.session ≤ p.sid := by
  intro fuel
  induction fuel with
  | zero => intro c s o h; simp [runCall] at h
  | succ f ih =>
    intro c s o h
    match c with
    | Call.pa name lp fps fb hold =>
      simp only [runCall] at h
      by_cases hf : store name = []
      · rw [if_pos hf] at h
        exact ih _ _ _ h
      · rw [if_neg hf] at h
        obtain ⟨h1, h2⟩ := ih _ _ _ h
        refine ⟨le_trans (Nat.le_succ _) h1, fun p hp => le_trans (Nat.le_succ _) (h2 p hp)⟩
    | Call.astep =>
      simp only [runCall] at h
      split at h
      · cases h; exact ⟨le_refl _, by simp⟩
      · split at h
        · cases h
        · split at h
          · split at h
            · cases h; exact ⟨le_refl _, by simp⟩
            · split at h
              · split at h
                · cases h; exact ⟨le_refl _, by simp⟩
                · rw [Option.map_eq_some'] at h
                  obtain ⟨o', ho', rfl⟩ := h
                  obtain ⟨h1, h2⟩ := ih _ _ _ ho'
                  refine ⟨h1, fun p hp => ?_⟩
                  simp only [List.mem_cons] at hp
                  rcases hp with rfl | hp
                  · exact le_refl _
                  · exact h2 p hp
              · cases h; exact ⟨le_refl _, by simp⟩
          · cases h; exact ⟨le_refl _, by simp⟩
    | Call.pi v =>
      cases v <;> simp only [runCall] at h <;>
        · have h2 := ih _ _ _ h
          exact h2

/-- `play_animation` and `play_idle` always install a strictly newer session
when they return normally, and every frame they present belongs to a session
strictly newer than the entry one: the superseded session is retired. -/
theorem runCall_new_session (store : FrameStore) :
    ∀ fuel c s o, c ≠ Call.astep → runCall store fuel c s = some o →
      s.session < o.sim.session ∧ ∀ p ∈ o.pres, s.session < p.sid := by
  intro fuel
  induction fuel with
  | zero => intro c s o _ h; simp [runCall] at h
  | succ f ih =>
    intro c s o hc h
    match c with
    | Call.pa name lp fps fb hold =>
      simp only [runCall] at h
      by_cases hf : store name = []
      · rw [if_pos hf] at h
        exact ih _ _ _ (by simp) h
      · rw [if_neg hf] at h
        obtain ⟨h1, h2⟩ := runCall_session store f _ _ _ h
        refine ⟨lt_of_lt_of_le (Nat.lt_succ_self _) h1,
                fun p hp => lt_of_lt_of_le (Nat.lt_succ_self _) (h2 p hp)⟩
    | Call.astep => exact absurd rfl hc
    | Call.pi v =>
      cases v <;> simp only [runCall] at h <;>
        · have h2 := ih _ _ _ (by simp) h
          exact h2

/-- Session monotonicity for every action that can touch the shared state. -/
theorem execAct_session (store : FrameStore) (fuel now : Nat) (a : Act) (s : Sim)
    (o : Out) (h : execAct store fuel now a s = some o) :
    s.session ≤ o.sim.session ∧ ∀ p ∈ o.pres, s.session ≤ p.sid := by
  match a with
  | Act.timer Cb.animStep => exact runCall_session store fuel _ _ _ h
  | Act.timer Cb.idleTick =>
    simp only [execAct, idle_tick] at h
    split at h
    · rw [Option.map_eq_some'] at h
      obtain ⟨o', ho', rfl⟩ := h
      have h2 := runCall_session store fuel _ _ _ ho'
      exact ⟨h2.1, h2.2⟩
    · cases h; exact ⟨le_refl _, by simp⟩
  | Act.timer Cb.glowTick =>
    simp only [execAct] at h
    cases h
    by_cases hg : s.playing = false ∧ s.currentFrames ≠ [] <;>
      simp [glow_refresh, hg]
  | Act.timer Cb.marqueeStep =>
    simp only [execAct, animate_marquee] at h
    split at h
    · cases h; exact ⟨le_refl _, by simp⟩
    · split at h
      · split at h
        · have h2 := runCall_session store fuel _ _ _ h
          exact h2
        · cases h; exact ⟨le_refl _, by simp⟩
      · cases h; exact ⟨le_refl _, by simp⟩
  | Act.timer Cb.delayedIdle => exact runCall_session store fuel _ _ _ h
  | Act.prompt txt =>
    simp only [execAct, on_user_prompt] at h
    split at h
    · cases h; exact ⟨le_refl _, by simp⟩
    · split at h
      · have h2 := runCall_session store fuel _ _ _ h
        exact h2
      · split at h
        · have h2 := runCall_session store fuel _ _ _ h
          exact h2
        · have h2 := runCall_session store fuel _ _ _ h
          exact h2
  | Act.touch loc taps =>
    match loc with
    | TouchLoc.both =>
      have h2 := runCall_session store fuel _ _ _ h
      exact h2
    | TouchLoc.cheekLeft => cases h; exact ⟨le_refl _, by simp⟩
    | TouchLoc.cheekRight => cases h; exact ⟨le_refl _, by simp⟩
    | TouchLoc.head =>
      simp only [execAct, apply_touch] at h
      split at h
      · have h2 := runCall_session store fuel _ _ _ h
        exact h2
      · split at h
        · have h2 := runCall_session store fuel _ _ _ h
          exact h2
        · split at h
          · have h2 := runCall_session store fuel _ _ _ h
            exact h2
          · cases h; exact ⟨le_refl _, by simp⟩

/-- One `_animate_step` in the middle of a sequence: draw the current frame,
advance the cursor, re-register after `fps_ms`. -/
theorem astep_mid (store : FrameStore) (f : Nat) (s : Sim)
    (hp : s.playing = true) (hlt : s.frameIndex + 1 < s.currentFrames.length) :
    runCall store (f + 1) Call.astep s =
      some ⟨{ s with frameIndex := s.frameIndex + 1 }, [(s.fpsMs, Cb.animStep)],
            [⟨s.session, s.frameIndex, s.currentFrames.getD s.frameIndex 0, PresSrc.anim⟩],
            []⟩ := by
  have hidx : s.frameIndex < s.currentFrames.length := Nat.lt_of_succ_lt hlt
  have hne : s.currentFrames ≠ [] := by
    intro h0
    rw [h0] at hlt
    simp at hlt
  simp only [runCall]
  rw [if_neg (by simp [hp, hne]), List.getElem?_eq_getElem hidx]
  simp only []
  rw [if_neg (by omega), List.getD_eq_getElem s.currentFrames 0 hidx]

/-- The final `_animate_step` of a non-looping fallback animation with a
positive hold: draw the last frame, stop playing, register the delayed
`play_idle(self.state.idle_variant)` after `hold_last_ms`. -/
theorem astep_last (store : FrameStore) (f : Nat) (s : Sim)
    (hp : s.playing = true) (hlast : s.frameIndex + 1 = s.currentFrames.length)
    (hl : s.loopFlag = false) (hfb : s.fallbackToIdle = true)
    (hh : 0 < s.holdLastMs) :
    runCall store (f + 1) Call.astep s =
      some ⟨{ s with frameIndex := s.frameIndex + 1, playing := false },
            [(s.holdLastMs, Cb.delayedIdle)],
            [⟨s.session, s.frameIndex, s.currentFrames.getD s.frameIndex 0, PresSrc.anim⟩],
            []⟩ := by
  have hidx : s.frameIndex < s.currentFrames.length := by omega
  have hne : s.currentFrames ≠ [] := by
    intro h0
    rw [h0] at hidx
    simp at hidx
  simp only [runCall]
  rw [if_neg (by simp [hp, hne]), List.getElem?_eq_getElem hidx]
  simp only []
  rw [if_pos (by omega), if_neg (by simp [hl]), if_pos (by simp [hfb]),
    if_pos (by simpa using hh), List.getD_eq_getElem s.currentFrames 0 hidx]

/-- Running the `_animate_step` chain of a freshly positioned, non-looping,
fallback-armed session to its end presents exactly the remaining frames, in
index order, once each, then stops with the `delayedIdle` hold registered. -/
theorem animN_run (store : FrameStore) (f : Nat) :
    ∀ n s, s.playing = true → s.loopFlag = false → s.fallbackToIdle = true →
      0 < s.holdLastMs → 0 < n → s.frameIndex + n = s.currentFrames.length →
      animN store (f + 1) n s =
        some ({ s with frameIndex := s.currentFrames.length, playing := false },
          (List.range' s.frameIndex n).map
            (fun i => ⟨s.session, i, s.currentFrames.getD i 0, PresSrc.anim⟩),
          List.replicate (n - 1) (s.fpsMs, Cb.animStep) ++ [(s.holdLastMs, Cb.delayedIdle)]) := by
  intro n
  induction n with
  | zero => intro s _ _ _ _ hn; omega
  | succ m ih =>
    intro s hp hl hfb hh _ hlen
    have unfold1 : animN store (f + 1) (m + 1) s
        = (runCall store (f + 1) Call.astep s).bind fun o =>
            (animN store (f + 1) m o.sim).map fun r =>
              (r.1, o.pres ++ r.2.1, o.scheds ++ r.2.2) := rfl
    cases m with
    | zero =>
      have hlast : s.frameIndex + 1 = s.currentFrames.length := by omega
      rw [unfold1, astep_last store f s hp hlast hl hfb hh]
      simp only [Option.some_bind, animN, Option.map_some']
      rw [hlast]
      simp [List.range'_one]
    | succ m' =>
      have hlt : s.frameIndex + 1 < s.currentFrames.length := by omega
      rw [unfold1, astep_mid store f s hp hlt]
      simp only [Option.some_bind]
      have ih2 := ih { s with frameIndex := s.frameIndex + 1 } hp hl hfb hh
        (Nat.succ_pos m') (by simp; omega)
      rw [ih2]
      simp [List.range'_succ, List.replicate_succ]

/-- Session monotonicity along any finite action sequence. -/
theorem runActs_session (store : FrameStore) (fuel : Nat) :
    ∀ l s r, runActs store fuel l s = some r →
      s.session ≤ r.1.session ∧ ∀ p ∈ r.2, s.session ≤ p.sid := by
  intro l
  induction l with
  | nil => intro s r h; cases h; exact ⟨le_refl _, by simp⟩
  | cons ta rest ih =>
    intro s r h
    simp only [runActs, Option.bind_eq_some] at h
    obtain ⟨o, ho, h⟩ := h
    rw [Option.map_eq_some'] at h
    obtain ⟨r', hr', rfl⟩ := h
    obtain ⟨h1, h2⟩ := execAct_session store fuel ta.1 ta.2 s o ho
    obtain ⟨h3, h4⟩ := ih _ _ hr'
    refine ⟨le_trans h1 h3, fun p hp => ?_⟩
    simp only [List.mem_append] at hp
    rcases hp with hp | hp
    · exact h2 p hp
    · exact le_trans h1 (h4 p hp)

/-- `play_idle("center")` on a store whose `idle_center` sequence is the
nonempty `ic` installs the looping `idle_center` session and synchronously
draws its first frame. -/
theorem playIdleCenter_starts_loop (store : FrameStore) (f : Nat) (t : Sim)
    (ic : List Frame) (hic : store "idle_center" = ic) (hne : ic ≠ []) :
    (runCall store (f + 3) (Call.pi Variant.center) t).map
      (fun o => (o.sim.mode, o.sim.idleVariant, o.sim.currentFrames, o.sim.loopFlag,
                 o.sim.playing, o.pres.map Pres.idx))
      = some (Mode.IDLE, Variant.center, ic, true, true, [0]) := by
  cases ic with
  | nil => exact absurd rfl hne
  | cons a l =>
    have h1 : runCall store (f + 3) (Call.pi Variant.center) t
        = runCall store (f + 1) Call.astep
            { t with mode := Mode.IDLE, idleVariant := Variant.center,
                     currentEmoji := IDLE_FACE, currentFrames := a :: l, frameIndex := 0,
                     playing := true, loopFlag := true, fpsMs := 170,
                     fallbackToIdle := false, holdLastMs := 0,
                     session := t.session + 1 } := by
      simp [runCall, hic]
    rw [h1]
    cases l with
    | nil => simp [runCall]
    | cons b l2 =>
      rw [astep_mid store f _ rfl (by simp)]
      simp

/-! ## Claim theorems -/

/-- C1 (amended): in the Tk simulator, requesting playback of any animation
name whose loaded frame list is empty immediately falls back to `Idle(Center)`
looping the `idle_center` sequence, presenting its first frame within the same
call — provided `idle_center` itself is nonempty (when `idle_center` is also
empty the `play_animation ↔ play_idle` recursion never returns, which the
fuel-indexed model reports as `none`).  The Pi app diverges from the claim:
see the counterexample. -/
theorem C1_missing_animation_falls_back (store : FrameStore) (f : Nat)
    (name : String) (lp : Bool) (fps : Nat) (fb : Bool) (hold : Nat) (s : Sim)
    (ic : List Frame) (hmiss : store name = []) (hic : store "idle_center" = ic)
    (hne : ic ≠ []) :
    (play_animation store (f + 4) name lp fps fb hold s).map
        (fun o => (o.sim.mode, o.sim.idleVariant, o.sim.currentFrames, o.sim.loopFlag,
                   o.sim.playing, o.pres.map Pres.idx))
      = some (Mode.IDLE, Variant.center, ic, true, true, [0]) := by
  have h0 : play_animation store (f + 4) name lp fps fb hold s
      = runCall store (f + 3) (Call.pi Variant.center) s := by
    simp [play_animation, runCall, hmiss]
  rw [h0]
  exact playIdleCenter_starts_loop store f s ic hic hne

/-- C1 witness: a missing name on the concrete store, from `Idle(Center)`. -/
theorem C1_missing_animation_falls_back_witness :
    (play_animation cStore (5 + 4) "ghost" false 90 true 5000 sIdleCenter).map
        (fun o => (o.sim.mode, o.sim.idleVariant, o.sim.currentFrames, o.sim.loopFlag,
                   o.sim.playing, o.pres.map Pres.idx))
      = some (Mode.IDLE, Variant.center, [0, 1], true, true, [0]) :=
  C1_missing_animation_falls_back cStore 5 "ghost" false 90 true 5000 sIdleCenter
    [0, 1] (by decide) (by decide) (by decide)

/-- C1 counterexample: in the Pi app (`PiLCDApp.play_animation`), requesting a
name absent from the dict is a no-op — the previous `ANIMATING` session keeps
running and there is no fallback to `Idle(Center)` looping `idle_center`. -/
theorem C1_counterexample_pi_no_fallback :
    piPlayAnimation piAnims "ghost" false 90 true 0 piS0 = piS0
    ∧ piAnims "ghost" = none
    ∧ piS0.mode = "ANIMATING"
    ∧ piS0.mode ≠ "IDLE"
    ∧ piS0.currentFrames ≠ [0, 1]
    ∧ piS0.loopFlag = false := by
  refine ⟨by rfl, by decide, by decide, by decide, by decide, by decide⟩

/-- C2: `llm_stub` refines the spec's ordered-group first-match mapper
(priority: sleep, proximity, phone, love, hate, silence, joke, focus-on,
focus-off, else idle, case-insensitive substring containment); any input
containing both a sleep keyword and a love keyword resolves to sleep; and a
minimal phrase per group maps to that group's animation. -/
theorem C2_mapper_priority (p q : String)
    (hs : anyKey sleepKeys (stripStr (lowerStr q)) = true)
    (_hl : anyKey loveKeys (stripStr (lowerStr q)) = true) :
    llm_stub p = mapperSpec p
    ∧ llm_stub q = "💤"
    ∧ emoji_to_animation (llm_stub "sleep") = some "sleep"
    ∧ emoji_to_animation (llm_stub "proximity") = some "proximity"
    ∧ emoji_to_animation (llm_stub "phone") = some "phone"
    ∧ emoji_to_animation (llm_stub "love") = some "love"
    ∧ emoji_to_animation (llm_stub "hate") = some "hate"
    ∧ emoji_to_animation (llm_stub "silence") = some "silence"
    ∧ emoji_to_animation (llm_stub "joke") = some "laugh"
    ∧ emoji_to_animation (llm_stub "focus on") = some "focus_on"
    ∧ emoji_to_animation (llm_stub "focus off") = some "focus_off"
    ∧ llm_stub "hello" = IDLE_FACE := by
  refine ⟨rfl, ?_, by decide, by decide, by decide, by decide, by decide, by decide,
    by decide, by decide, by decide, by decide⟩
  simp [llm_stub, hs]

/-- C2 witness at a phrase containing both a sleep and a love keyword. -/
theorem C2_mapper_priority_witness :
    llm_stub "i hate mondays" = mapperSpec "i hate mondays"
    ∧ llm_stub "go to sleep my love" = "💤"
    ∧ emoji_to_animation (llm_stub "sleep") = some "sleep"
    ∧ emoji_to_animation (llm_stub "proximity") = some "proximity"
    ∧ emoji_to_animation (llm_stub "phone") = some "phone"
    ∧ emoji_to_animation (llm_stub "love") = some "love"
    ∧ emoji_to_animation (llm_stub "hate") = some "hate"
    ∧ emoji_to_animation (llm_stub "silence") = some "silence"
    ∧ emoji_to_animation (llm_stub "joke") = some "laugh"
    ∧ emoji_to_animation (llm_stub "focus on") = some "focus_on"
    ∧ emoji_to_animation (llm_stub "focus off") = some "focus_off"
    ∧ llm_stub "hello" = IDLE_FACE :=
  C2_mapper_priority "i hate mondays" "go to sleep my love" (by decide) (by decide)

/-- C8: re-presenting between player steps is idempotent — the 33 ms glow
re-render never mutates the player state, two consecutive re-renders of the
same state produce the same presented output (same frame index — the
clamped last one — not an advanced one), for every state; concretely, during
a hold on `idle_left` it re-presents the final frame. -/
theorem C8_represent_idempotent (s : Sim) :
    (glow_refresh s).sim = s
    ∧ (glow_refresh ((glow_refresh s).sim)).pres = (glow_refresh s).pres
    ∧ (glow_refresh s).sim.frameIndex = s.frameIndex
    ∧ (glow_refresh { sLookLeft with playing := false, frameIndex := 2 }).pres
      = [⟨2, 1, 3, PresSrc.glow⟩] := by
  refine ⟨glow_sim s, by rw [glow_sim], by rw [glow_sim], by rfl⟩

/-- C9: a cheek-left touch decreases the volume by 10 saturating at 0 (the
`Nat` subtraction is `max(0, v - 10)`), a cheek-right touch increases it by 10
saturating at 100, the 0..100 bound is preserved, and neither touch changes
the mode, idle variant, frame list, cursor, playing flag or session. -/
theorem C9_volume_saturates (store : FrameStore) (f : Nat) (s : Sim)
    (h : s.volume ≤ 100) :
    apply_touch store f TouchLoc.cheekLeft 0 s
      = some ⟨{ s with volume := s.volume - 10 }, [], [], []⟩
    ∧ apply_touch store f TouchLoc.cheekRight 0 s
      = some ⟨{ s with volume := min 100 (s.volume + 10) }, [], [], []⟩
    ∧ s.volume - 10 ≤ 100
    ∧ min 100 (s.volume + 10) ≤ 100
    ∧ ({ s with volume := s.volume - 10 } : Sim).mode = s.mode
    ∧ ({ s with volume := s.volume - 10 } : Sim).idleVariant = s.idleVariant
    ∧ ({ s with volume := s.volume - 10 } : Sim).currentFrames = s.currentFrames
    ∧ ({ s with volume := s.volume - 10 } : Sim).frameIndex = s.frameIndex
    ∧ ({ s with volume := s.volume - 10 } : Sim).playing = s.playing
    ∧ ({ s with volume := s.volume - 10 } : Sim).session = s.session
    ∧ ({ s with volume := min 100 (s.volume + 10) } : Sim).mode = s.mode
    ∧ ({ s with volume := min 100 (s.volume + 10) } : Sim).idleVariant = s.idleVariant
    ∧ ({ s with volume := min 100 (s.volume + 10) } : Sim).currentFrames = s.currentFrames
    ∧ ({ s with volume := min 100 (s.volume + 10) } : Sim).frameIndex = s.frameIndex
    ∧ ({ s with volume := min 100 (s.volume + 10) } : Sim).playing = s.playing
    ∧ ({ s with volume := min 100 (s.volume + 10) } : Sim).session = s.session := by
  refine ⟨rfl, rfl, by omega, by omega, rfl, rfl, rfl, rfl, rfl, rfl, rfl, rfl, rfl,
    rfl, rfl, rfl⟩

/-- C9 witness at the concrete idle state (volume 50). -/
theorem C9_volume_saturates_witness :
    apply_touch cStore 9 TouchLoc.cheekLeft 0 sIdleCenter
      = some ⟨{ sIdleCenter with volume := sIdleCenter.volume - 10 }, [], [], []⟩
    ∧ apply_touch cStore 9 TouchLoc.cheekRight 0 sIdleCenter
      = some ⟨{ sIdleCenter with volume := min 100 (sIdleCenter.volume + 10) }, [], [], []⟩
    ∧ sIdleCenter.volume - 10 ≤ 100
    ∧ min 100 (sIdleCenter.volume + 10) ≤ 100
    ∧ ({ sIdleCenter with volume := sIdleCenter.volume - 10 } : Sim).mode = sIdleCenter.mode
    ∧ ({ sIdleCenter with volume := sIdleCenter.volume - 10 } : Sim).idleVariant = sIdleCenter.idleVariant
    ∧ ({ sIdleCenter with volume := sIdleCenter.volume - 10 } : Sim).currentFrames = sIdleCenter.currentFrames
    ∧ ({ sIdleCenter with volume := sIdleCenter.volume - 10 } : Sim).frameIndex = sIdleCenter.frameIndex
    ∧ ({ sIdleCenter with volume := sIdleCenter.volume - 10 } : Sim).playing = sIdleCenter.playing
    ∧ ({ sIdleCenter with volume := sIdleCenter.volume - 10 } : Sim).session = sIdleCenter.session
    ∧ ({ sIdleCenter with volume := min 100 (sIdleCenter.volume + 10) } : Sim).mode = sIdleCenter.mode
    ∧ ({ sIdleCenter with volume := min 100 (sIdleCenter.volume + 10) } : Sim).idleVariant = sIdleCenter.idleVariant
    ∧ ({ sIdleCenter with volume := min 100 (sIdleCenter.volume + 10) } : Sim).currentFrames = sIdleCenter.currentFrames
    ∧ ({ sIdleCenter with volume := min 100 (sIdleCenter.volume + 10) } : Sim).frameIndex = sIdleCenter.frameIndex
    ∧ ({ sIdleCenter with volume := min 100 (sIdleCenter.volume + 10) } : Sim).playing = sIdleCenter.playing
    ∧ ({ sIdleCenter with volume := min 100 (sIdleCenter.volume + 10) } : Sim).session = sIdleCenter.session :=
  C9_volume_saturates cStore 9 sIdleCenter (by decide)

/-- C10: a prompt that strips to the empty string is a complete no-op on the
core state — same state, no callback registered, nothing presented, no
animation started. -/
theorem C10_blank_prompt_noop (store : FrameStore) (f : Nat) (txt : String)
    (s : Sim) (h : stripStr txt = "") :
    on_user_prompt store f txt s = some ⟨s, [], [], []⟩ := by
  simp [on_user_prompt, h]

/-- C10 witness on a whitespace-only prompt. -/
theorem C10_blank_prompt_noop_witness :
    on_user_prompt cStore 9 "   " sIdleCenter = some ⟨sIdleCenter, [], [], []⟩ :=
  C10_blank_prompt_noop cStore 9 "   " sIdleCenter (by decide)

/-- C5: a stimulus submitted while the machine is in `Event` immediately
retires the in-flight session — the returned state carries a strictly newer
ghost session number — the frames drawn during the submission belong to the
new session only, and along any continuation of the run no frame of the
superseded session is ever presented again; concretely, a `love` prompt over
a playing `sleep` session installs the `love` frames at once. -/
theorem C5_latest_stimulus_wins (store : FrameStore) (fuel : Nat) (txt : String)
    (s : Sim) (o : Out) (l : List (Nat × Act)) (r : Sim × List Pres)
    (_hmode : s.mode = Mode.EVENT)
    (hne : stripStr txt ≠ "")
    (hp : on_user_prompt store fuel txt s = some o)
    (hrun : runActs store fuel l o.sim = some r) :
    s.session < o.sim.session
    ∧ (o.pres.all fun p => decide (s.session < p.sid)) = true
    ∧ (r.2.all fun p => decide (s.session < p.sid)) = true
    ∧ (on_user_prompt cStore 9 "i love you" sEvent0).map
        (fun o2 => (o2.sim.currentFrames, o2.sim.frameIndex, o2.sim.session))
      = some ([10, 11], 1, 6) := by
  have hstrict : s.session < o.sim.session ∧ ∀ p ∈ o.pres, s.session < p.sid := by
    revert hp
    simp only [on_user_prompt]
    rw [if_neg hne]
    split
    · intro hp
      have h2 := runCall_new_session store fuel _ _ _ (by simp) hp
      exact h2
    · split
      · intro hp
        have h2 := runCall_new_session store fuel _ _ _ (by simp) hp
        exact h2
      · intro hp
        have h2 := runCall_new_session store fuel _ _ _ (by simp) hp
        exact h2
  have hacts := runActs_session store fuel l o.sim r hrun
  refine ⟨hstrict.1, ?_, ?_, by rfl⟩
  · rw [List.all_eq_true]
    intro p hp2
    exact decide_eq_true (hstrict.2 p hp2)
  · rw [List.all_eq_true]
    intro p hp2
    exact decide_eq_true (lt_of_lt_of_le hstrict.1 (hacts.2 p hp2))

/-- C5 witness: the concrete `love`-over-`sleep` replacement, with the empty
continuation. -/
theorem C5_latest_stimulus_wins_witness :
    sEvent0.session < c5Out.sim.session
    ∧ (c5Out.pres.all fun p => decide (sEvent0.session < p.sid)) = true
    ∧ ((c5Out.sim, ([] : List Pres)).2.all fun p => decide (sEvent0.session < p.sid)) = true
    ∧ (on_user_prompt cStore 9 "i love you" sEvent0).map
        (fun o2 => (o2.sim.currentFrames, o2.sim.frameIndex, o2.sim.session))
      = some ([10, 11], 1, 6) :=
  C5_latest_stimulus_wins cStore 9 "i love you" sEvent0 c5Out []
    (c5Out.sim, []) (by decide) (by decide) (by rfl) (by rfl)

/-- C7: the device state is constructed in `Boot`, and every operation
available after construction (any timer callback, any prompt, any touch)
preserves not-being-in-`Boot`: once the machine has left `Boot`, no reachable
successor state is in `Boot` again. -/
theorem C7_never_back_to_boot (t0 : Nat) (tw : Int) (store : FrameStore)
    (f now : Nat) (a : Act) (s : Sim) (o : Out)
    (hs : s.mode ≠ Mode.BOOT) (h : execAct store f now a s = some o) :
    (initState t0 tw).mode = Mode.BOOT ∧ o.sim.mode ≠ Mode.BOOT := by
  refine ⟨rfl, ?_⟩
  match a with
  | Act.timer Cb.animStep =>
    rcases runCall_mode store f _ _ _ h with h' | h' <;> simp [h', hs]
  | Act.timer Cb.idleTick =>
    simp only [execAct, idle_tick] at h
    split at h
    · rw [Option.map_eq_some'] at h
      obtain ⟨o', ho', rfl⟩ := h
      rcases runCall_mode store f _ _ _ ho' with h' | h' <;> simp_all
    · cases h
      exact hs
  | Act.timer Cb.glowTick =>
    simp only [execAct] at h
    cases h
    rw [glow_sim]
    exact hs
  | Act.timer Cb.marqueeStep =>
    simp only [execAct, animate_marquee] at h
    rw [if_pos hs] at h
    cases h
    exact hs
  | Act.timer Cb.delayedIdle =>
    rcases runCall_mode store f _ _ _ h with h' | h' <;> simp [h', hs]
  | Act.prompt txt =>
    simp only [execAct, on_user_prompt] at h
    split at h
    · cases h
      exact hs
    · split at h
      · rcases runCall_mode store f _ _ _ h with h' | h' <;> simp_all
      · split at h
        · rcases runCall_mode store f _ _ _ h with h' | h' <;> simp_all
        · rcases runCall_mode store f _ _ _ h with h' | h' <;> simp_all
  | Act.touch loc taps =>
    match loc with
    | TouchLoc.both =>
      rcases runCall_mode store f _ _ _ h with h' | h' <;> simp_all
    | TouchLoc.cheekLeft => cases h; exact hs
    | TouchLoc.cheekRight => cases h; exact hs
    | TouchLoc.head =>
      simp only [execAct, apply_touch] at h
      split at h
      · rcases runCall_mode store f _ _ _ h with h' | h' <;> simp_all
      · split at h
        · rcases runCall_mode store f _ _ _ h with h' | h' <;> simp_all
        · split at h
          · rcases runCall_mode store f _ _ _ h with h' | h' <;> simp_all
          · cases h
            exact hs

/-- C7 witness: a cheek touch from idle keeps the mode away from `Boot`. -/
theorem C7_never_back_to_boot_witness :
    (initState 0 100).mode = Mode.BOOT
    ∧ (⟨{ sIdleCenter with volume := 40 }, [], [], []⟩ : Out).sim.mode ≠ Mode.BOOT :=
  C7_never_back_to_boot 0 100 cStore 9 0 (Act.touch TouchLoc.cheekLeft 0) sIdleCenter
    ⟨{ sIdleCenter with volume := 40 }, [], [], []⟩ (by decide) (by rfl)

/-- C3 (amended): an EVENT animation started with `loop = false` over the
`N`-frame sequence presents frames `0 .. N-1` exactly once each, in increasing
order (the `_animate_step` chain re-registers itself `N-1` times and finally
registers the `holdMs` delayed fallback); the idle-drift check and the glow
re-render never interfere while in `Event`; and when the hold fires with the
idle variant still `Center` (the normal case) the machine transitions to
`Idle(Center)` looping a nonempty `idle_center`.  (As stated the claim fails
when the idle variant is not `Center` at fallback time — see the
counterexample: the fallback is `play_idle(self.state.idle_variant)`.) -/
theorem C3_event_playback (store : FrameStore) (f now : Nat) (s g t : Sim)
    (ic : List Frame)
    (hp : s.playing = true) (hl : s.loopFlag = false) (hfb : s.fallbackToIdle = true)
    (hh : 0 < s.holdLastMs) (hi0 : s.frameIndex = 0) (hN : 0 < s.currentFrames.length)
    (hg : g.mode = Mode.EVENT)
    (ht : t.idleVariant = Variant.center)
    (hic : store "idle_center" = ic) (hne : ic ≠ []) :
    animN store (f + 1) s.currentFrames.length s
      = some ({ s with frameIndex := s.currentFrames.length, playing := false },
          (List.range' 0 s.currentFrames.length).map
            (fun i => ⟨s.session, i, s.currentFrames.getD i 0, PresSrc.anim⟩),
          List.replicate (s.currentFrames.length - 1) (s.fpsMs, Cb.animStep)
            ++ [(s.holdLastMs, Cb.delayedIdle)])
    ∧ idle_tick store f now g = some ⟨g, [(500, Cb.idleTick)], [], []⟩
    ∧ (glow_refresh g).sim = g
    ∧ (execAct store (f + 4) now (Act.timer Cb.delayedIdle) t).map
        (fun o => (o.sim.mode, o.sim.idleVariant, o.sim.currentFrames, o.sim.loopFlag,
                   o.sim.playing, o.pres.map Pres.idx))
      = some (Mode.IDLE, Variant.center, ic, true, true, [0]) := by
  refine ⟨?_, ?_, glow_sim g, ?_⟩
  · have h1 := animN_run store f s.currentFrames.length s hp hl hfb hh hN (by omega)
    rw [hi0] at h1
    exact h1
  · simp [idle_tick, hg]
  · have h4 := playIdleCenter_starts_loop store (f + 1) t ic hic hne
    show (runCall store (f + 4) (Call.pi t.idleVariant) t).map
        (fun o => (o.sim.mode, o.sim.idleVariant, o.sim.currentFrames, o.sim.loopFlag,
                   o.sim.playing, o.pres.map Pres.idx)) = _
    rw [ht]
    exact h4

/-- C3 witness: the freshly installed two-frame `love` session on the
concrete store, with `Event` noninterference at `sEvent0` and the hold firing
from `Idle(Center)`. -/
theorem C3_event_playback_witness :
    animN cStore (5 + 1) sC3.currentFrames.length sC3
      = some ({ sC3 with frameIndex := sC3.currentFrames.length, playing := false },
          (List.range' 0 sC3.currentFrames.length).map
            (fun i => ⟨sC3.session, i, sC3.currentFrames.getD i 0, PresSrc.anim⟩),
          List.replicate (sC3.currentFrames.length - 1) (sC3.fpsMs, Cb.animStep)
            ++ [(sC3.holdLastMs, Cb.delayedIdle)])
    ∧ idle_tick cStore 5 0 sEvent0 = some ⟨sEvent0, [(500, Cb.idleTick)], [], []⟩
    ∧ (glow_refresh sEvent0).sim = sEvent0
    ∧ (execAct cStore (5 + 4) 0 (Act.timer Cb.delayedIdle) sIdleCenter).map
        (fun o => (o.sim.mode, o.sim.idleVariant, o.sim.currentFrames, o.sim.loopFlag,
                   o.sim.playing, o.pres.map Pres.idx))
      = some (Mode.IDLE, Variant.center, [0, 1], true, true, [0]) :=
  C3_event_playback cStore 5 0 sC3 sEvent0 sIdleCenter [0, 1] rfl rfl rfl
    (by decide) rfl (by decide) rfl rfl (by decide) (by decide)

/-- C3 counterexample: a `love` event submitted during a left look-shot (idle
variant `left`) runs to completion and then falls back to
`Idle(Left)` replaying `idle_left` as a one-shot — not to `Idle(Center)` with
the `idle_center` looping session, as the claim states. -/
theorem C3_counterexample_left_variant :
    ((on_user_prompt cStore 9 "i love you" sLookLeft).bind fun o =>
        runTimers cStore 9 2 ⟨0, o.sim, o.scheds, [], []⟩).map
        (fun c => (c.sim.mode, c.sim.idleVariant, c.sim.currentFrames, c.sim.loopFlag))
      = some (Mode.IDLE, Variant.left, [2, 3], false)
    ∧ Variant.left ≠ Variant.center
    ∧ ([2, 3] : List Frame) ≠ cStore "idle_center"
    ∧ sLookLeft.idleVariant = Variant.left := by
  refine ⟨by rfl, by decide, by decide, by decide⟩

/-- C4: evaluation of the idle look-shot at the concrete store.  Starting
from stamped `Idle(Center)`, the drift check fires at 60000 ms and plays the
one-shot `idle_left`; after its 700 ms hold the fallback
`play_idle(self.state.idle_variant)` runs with the variant already set to
`left` by the look-shot itself, so the machine replays the `idle_left`
one-shot (`Idle(Left)`) instead of returning to `Idle(Center)` as the claim
says. -/
theorem C4_lookshot_replays_itself :
    (runTimers cStore 9 4
        ⟨0, { sIdleCenter with playing := false }, [(60000, Cb.idleTick)], [], []⟩).map
        (fun c => (c.sim.mode, c.sim.idleVariant, c.sim.currentFrames, c.sim.loopFlag,
                   c.sim.playing, c.drifts))
      = some (Mode.IDLE, Variant.left, [2, 3], false, true, [60000])
    ∧ cStore "idle_left" = [2, 3]
    ∧ cStore "idle_center" = [0, 1]
    ∧ Variant.left ≠ Variant.center := by
  refine ⟨by rfl, by decide, by decide, by decide⟩

set_option maxRecDepth 4000 in
/-- C6 (amended): with the idle-drift timestamp stamped `t0` (as after
boot-exit or a previous drift), an idle tick strictly before `t0 + 60000` ms
does nothing but re-register itself, while any idle tick at or after
`t0 + 60000` fires exactly one drift — a left look-shot — restamping the
timestamp to the firing time; concretely, over a full dwell window the drift
fires exactly once, the next one exactly one dwell later.  (As stated, with
`t0` read as the time `Idle(Center)` is entered, the claim fails for an idle
entered through an event fallback, which does not restamp — see the
counterexample.) -/
theorem C6_idle_drift (store : FrameStore) (f t0 now1 now2 : Nat) (s : Sim)
    (il : List Frame)
    (hmode : s.mode = Mode.IDLE) (hstamp : s.lastIdleMove = t0)
    (hv : s.idleVariant = Variant.center)
    (hb : now1 < t0 + 60000) (ha : t0 + 60000 ≤ now2)
    (hil : store "idle_left" = il) (hilne : il ≠ []) :
    idle_tick store f now1 s = some ⟨s, [(500, Cb.idleTick)], [], []⟩
    ∧ (idle_tick store (f + 3) now2 s).map
        (fun o => (o.drifts, o.sim.lastIdleMove, o.sim.mode, o.sim.idleVariant))
      = some ([now2], now2, Mode.IDLE, Variant.left)
    ∧ (runTimers cStore 9 390 cfgDrift).map (fun c => (c.drifts, c.now))
      = some ([60000, 120000], 120680) := by
  refine ⟨?_, ?_, by decide⟩
  · simp only [idle_tick]
    rw [if_neg]
    rintro ⟨h1, h2⟩
    rw [hstamp] at h2
    omega
  · have hcond : s.mode = Mode.IDLE ∧ 60000 ≤ now2 - s.lastIdleMove :=
      ⟨hmode, by rw [hstamp]; omega⟩
    simp only [idle_tick]
    rw [if_pos hcond]
    have hnv : (if ({ s with lastIdleMove := now2 } : Sim).idleVariant ≠ Variant.left
        then Variant.left else Variant.right) = Variant.left := by
      simp [hv]
    rw [hnv]
    cases il with
    | nil => exact absurd rfl hilne
    | cons a l =>
      have h1 : runCall store (f + 3) (Call.pi Variant.left) { s with lastIdleMove := now2 }
          = runCall store (f + 1) Call.astep
              { s with
                lastIdleMove := now2, mode := Mode.IDLE, idleVariant := Variant.left,
                currentEmoji := IDLE_FACE, currentFrames := a :: l, frameIndex := 0,
                playing := true, loopFlag := false, fpsMs := 120, fallbackToIdle := true,
                holdLastMs := 700, session := s.session + 1 } := by
        simp [runCall, hil]
      rw [h1]
      cases l with
      | nil => simp [runCall]
      | cons b l2 =>
        rw [astep_mid store f _ rfl (by simp)]
        simp

set_option maxRecDepth 4000 in
/-- C6 witness: the fresh stamp at 0, a tick at 59999 and one at 60000. -/
theorem C6_idle_drift_witness :
    idle_tick cStore 6 59999 { sIdleCenter with playing := false, currentFrames := [] }
      = some ⟨{ sIdleCenter with playing := false, currentFrames := [] },
              [(500, Cb.idleTick)], [], []⟩
    ∧ (idle_tick cStore (6 + 3) 60000
          { sIdleCenter with playing := false, currentFrames := [] }).map
        (fun o => (o.drifts, o.sim.lastIdleMove, o.sim.mode, o.sim.idleVariant))
      = some ([60000], 60000, Mode.IDLE, Variant.left)
    ∧ (runTimers cStore 9 390 cfgDrift).map (fun c => (c.drifts, c.now))
      = some ([60000, 120000], 120680) :=
  C6_idle_drift cStore 6 0 59999 60000
    { sIdleCenter with playing := false, currentFrames := [] } [2, 3]
    (by decide) (by decide) (by decide) (by decide) (by decide) (by decide) (by decide)

/-- C6 counterexample: `Idle(Center)` entered at 70000 ms through the event
fallback keeps the stale drift timestamp 0, so the very next idle tick at
70500 ms — far earlier than 70000 + 60000 — fires a drift. -/
theorem C6_counterexample_stale_stamp :
    (runTimers cStore 9 4 cfgStale).map (fun c => (c.drifts, c.now, c.sim.mode))
      = some ([70500], 70500, Mode.IDLE)
    ∧ (execAct cStore 9 70000 (Act.timer Cb.delayedIdle) sPostEvent).map
        (fun o => (o.sim.mode, o.sim.idleVariant)) = some (Mode.IDLE, Variant.center)
    ∧ 70500 < 70000 + 60000 := by
  refine ⟨by rfl, by rfl, by decide⟩

end LcdSim
